import Mathlib

/-!
# Verification of `helpers.js` (vs-code-settings-os)

A shallow embedding of the module `src/helpers.js` of the
`vs-code-settings-os` extension, together with proofs about it.

The module manipulates JSON settings objects, so we first embed JavaScript
JSON values (`JVal`).  The pure function `deepMerge` (helpers.js lines
107-125) and its helper `isObject` (lines 127-129) are embedded directly;
JavaScript objects are modelled as association lists of string keys (a
real JavaScript object has no duplicate keys, so hypotheses of key-nodup
appear where the distinction matters).

The effectful functions (lines 12-105 and 154-177) are embedded with
explicit state passing further below, and a heap-based semantics of
`deepMerge` occupies the last section to settle the frame property.
-/

/-- A JavaScript JSON value: `null`, booleans, numbers, strings, arrays and
objects.  Object fields are kept as an ordered association list, which is
how JavaScript enumerates own string-keyed properties. -/
inductive JVal where
  | null
  | bool (b : Bool)
  | num (n : Int)
  | str (s : String)
  | arr (elems : List JVal)
  | obj (fields : List (String × JVal))
  deriving Repr

/-- helpers.js lines 127-129:
`item && typeof item === 'object' && !Array.isArray(item)`.
`null` is falsy (so excluded even though `typeof null === 'object'`),
arrays are excluded explicitly, and every other non-object value has a
different `typeof`; hence exactly the `obj` constructor qualifies. -/
def isObject : JVal → Bool
  | .obj _ => true
  | _ => false

/-- Own enumerable properties of an array value: index keys `"0"`, `"1"`, …
(relevant to `Object.assign({}, target)` when `target` is an array). -/
def indexPairs (es : List JVal) : List (String × JVal) :=
  es.enum.map (fun p => (toString p.1, p.2))

/-- Own enumerable properties contributed by a string primitive under
`Object.assign`: one single-character string per index. -/
def charPairs (s : String) : List (String × JVal) :=
  s.data.enum.map (fun p => (toString p.1, JVal.str (String.mk [p.2])))

/-- `Object.assign({}, v)` (helpers.js line 108): the fields of the fresh
output object.  Copies an object's fields; spreads an array or a string
into index-keyed fields; numbers, booleans, `null` contribute nothing. -/
def toFields : JVal → List (String × JVal)
  | .obj fs => fs
  | .arr es => indexPairs es
  | .str s => charPairs s
  | _ => []

/-- JavaScript property lookup on an association list: first binding of the
key, if any.  `key in target` is `(lookupField tf k).isSome`, and
`target[key]` is the value it carries. -/
def lookupField : List (String × JVal) → String → Option JVal
  | [], _ => none
  | (k', v) :: rest, k => if k' = k then some v else lookupField rest k

/-- JavaScript property assignment `output[key] = v` (also
`Object.assign(output, { [key]: v })`) on an association list: overwrite
an existing key in place, otherwise append the new key at the end. -/
def setField : List (String × JVal) → String → JVal → List (String × JVal)
  | [], k, v => [(k, v)]
  | (k', v') :: rest, k, v =>
      if k' = k then (k, v) :: rest else (k', v') :: setField rest k v

mutual

/-- helpers.js lines 107-125.  `output` starts as `Object.assign({}, target)`;
when both arguments are plain objects the source keys are folded over by
`mergeFields`, otherwise the shallow copy is returned as is (always an
object). -/
def deepMerge (target source : JVal) : JVal :=
  let output := toFields target
  match target, source with
  | .obj tf, .obj sf => .obj (mergeFields tf sf output)
  | _, _ => .obj output
termination_by sizeOf source

/-- The `Object.keys(source).forEach` loop of helpers.js lines 111-121:
for each source key, if the source value is a plain object then either
adopt it (key absent from the target, line 114) or store
`deepMerge(target[key], source[key])` (line 116); otherwise the source
value overwrites (line 119).  Note line 112 tests only the SOURCE value:
the target value at the key is not required to be an object. -/
def mergeFields (tf : List (String × JVal)) :
    List (String × JVal) → List (String × JVal) → List (String × JVal)
  | [], out => out
  | (k, sv) :: rest, out =>
      let out' :=
        if isObject sv then
          match lookupField tf k with
          | none => setField out k sv
          | some tv => setField out k (deepMerge tv sv)
        else setField out k sv
      mergeFields tf rest out'
termination_by l => sizeOf l

end

/-- The value `deepMerge` stores for a source entry `(k, sv)`, as a function
of the target's binding at `k`. -/
def mergedValue (tf : List (String × JVal)) (k : String) (sv : JVal) : JVal :=
  if isObject sv then
    match lookupField tf k with
    | none => sv
    | some tv => deepMerge tv sv
  else sv

theorem lookupField_setField (out : List (String × JVal)) (k k' : String) (v : JVal) :
    lookupField (setField out k v) k' = if k = k' then some v else lookupField out k' := by
  induction out with
  | nil =>
      by_cases h : k = k' <;> simp [setField, lookupField, h]
  | cons hd tl ih =>
      obtain ⟨k0, v0⟩ := hd
      by_cases h0 : k0 = k
      · subst h0
        by_cases h : k0 = k' <;> simp [setField, lookupField, h]
      · by_cases h : k0 = k'
        · subst h
          have : ¬ k = k0 := fun he => h0 he.symm
          simp [setField, lookupField, h0, this]
        · simp [setField, lookupField, h0, h, ih]

theorem lookupField_mergeFields_not_mem (tf sf out : List (String × JVal)) (k : String)
    (hk : lookupField sf k = none) :
    lookupField (mergeFields tf sf out) k = lookupField out k := by
  induction sf generalizing out with
  | nil => simp [mergeFields]
  | cons hd rest ih =>
      obtain ⟨k0, sv⟩ := hd
      have hne : ¬ k0 = k := by
        intro h
        simp [lookupField, h] at hk
      have hrest : lookupField rest k = none := by
        simpa [lookupField, hne] using hk
      simp only [mergeFields]
      rw [ih _ hrest]
      by_cases ho : isObject sv
      · simp only [ho, if_pos]
        cases lookupField tf k0 <;> simp [lookupField_setField, hne]
      · simp [ho, lookupField_setField, hne]

theorem lookupField_eq_none_of_not_mem_keys (l : List (String × JVal)) (k : String)
    (h : k ∉ l.map Prod.fst) : lookupField l k = none := by
  induction l with
  | nil => simp [lookupField]
  | cons hd tl ih =>
      obtain ⟨k0, v0⟩ := hd
      simp only [List.map_cons, List.mem_cons, not_or] at h
      have : ¬ k0 = k := fun he => h.1 he.symm
      simp [lookupField, this, ih h.2]

theorem lookupField_mergeFields_mem (tf sf out : List (String × JVal)) (k : String) (sv : JVal)
    (hnd : (sf.map Prod.fst).Nodup) (hk : lookupField sf k = some sv) :
    lookupField (mergeFields tf sf out) k = some (mergedValue tf k sv) := by
  induction sf generalizing out with
  | nil => simp [lookupField] at hk
  | cons hd rest ih =>
      obtain ⟨k0, sv0⟩ := hd
      by_cases h : k0 = k
      · subst h
        have hsv : sv0 = sv := by
          simpa [lookupField] using hk
        subst hsv
        have hrest : lookupField rest k0 = none := by
          simp only [List.map_cons, List.nodup_cons] at hnd
          exact lookupField_eq_none_of_not_mem_keys _ _ hnd.1
        simp only [mergeFields]
        rw [lookupField_mergeFields_not_mem _ _ _ _ hrest]
        by_cases ho : isObject sv0
        · simp only [mergedValue, ho, if_pos]
          cases htf : lookupField tf k0 <;> simp [htf, lookupField_setField]
        · simp [mergedValue, ho, lookupField_setField]
      · have hrest : lookupField rest k = some sv := by
          simpa [lookupField, h] using hk
        have hnd' : (rest.map Prod.fst).Nodup := by
          simp only [List.map_cons, List.nodup_cons] at hnd
          exact hnd.2
        simp only [mergeFields]
        exact ih _ hnd' hrest

/-- Claim C1 (counterexample).  The claim states that for a key present in
both mappings where only one of the two values is a plain object, the
result holds exactly the overlay's value.  At base `{a: 1}` and overlay
`{a: {x: 2}}` the code instead recurses (line 112 checks only the source
value), producing `{a: {}}` and not `{a: {x: 2}}`. -/
theorem deepMerge_mixed_key_not_overlay :
    deepMerge (JVal.obj [("a", JVal.num 1)]) (JVal.obj [("a", JVal.obj [("x", JVal.num 2)])])
      = JVal.obj [("a", JVal.obj [])]
    ∧ JVal.obj [("a", JVal.obj [])] ≠ JVal.obj [("a", JVal.obj [("x", JVal.num 2)])]
    ∧ isObject (JVal.num 1) = false := by
  refine ⟨?_, by simp, rfl⟩
  simp [deepMerge, mergeFields, setField, lookupField, isObject, toFields]

/-- Claim C1 (amended).  `deepMerge(base, overlay)` on plain objects (keys
of a JavaScript object are distinct, hence the nodup hypothesis) returns a
mapping containing all keys from both; a key present in the overlay with a
NON-object value gets exactly the overlay's value; a key present in the
overlay with a plain-object value gets the overlay's value when absent
from the base and `deepMerge` of the two bound values when present in the
base — regardless of whether the base's value is itself an object (this
last point is where the original claim fails); keys only in the base keep
the base's value. -/
theorem deepMerge_obj_spec (tf sf : List (String × JVal))
    (hnd : (sf.map Prod.fst).Nodup) :
    ∃ rf, deepMerge (.obj tf) (.obj sf) = .obj rf
      ∧ (∀ k, (lookupField rf k).isSome
            ↔ ((lookupField tf k).isSome ∨ (lookupField sf k).isSome))
      ∧ (∀ k, lookupField sf k = none → lookupField rf k = lookupField tf k)
      ∧ (∀ k sv, lookupField sf k = some sv → isObject sv = false →
            lookupField rf k = some sv)
      ∧ (∀ k sv, lookupField sf k = some sv → isObject sv = true →
            lookupField tf k = none → lookupField rf k = some sv)
      ∧ (∀ k sv tv, lookupField sf k = some sv → isObject sv = true →
            lookupField tf k = some tv → lookupField rf k = some (deepMerge tv sv)) := by
  refine ⟨mergeFields tf sf (toFields (JVal.obj tf)), by simp [deepMerge], ?_, ?_, ?_, ?_, ?_⟩
  · intro k
    cases hk : lookupField sf k with
    | none =>
        rw [lookupField_mergeFields_not_mem _ _ _ _ hk]
        simp [toFields, hk]
    | some sv =>
        rw [lookupField_mergeFields_mem _ _ _ _ _ hnd hk]
        simp
  · intro k hk
    rw [lookupField_mergeFields_not_mem _ _ _ _ hk]
    simp [toFields]
  · intro k sv hk ho
    rw [lookupField_mergeFields_mem _ _ _ _ _ hnd hk]
    simp [mergedValue, ho]
  · intro k sv hk ho htf
    rw [lookupField_mergeFields_mem _ _ _ _ _ hnd hk]
    simp [mergedValue, ho, htf]
  · intro k sv tv hk ho htf
    rw [lookupField_mergeFields_mem _ _ _ _ _ hnd hk]
    simp [mergedValue, ho, htf]

/-- Witness for `deepMerge_obj_spec` at base `{a: {x: 1}, b: 7}` and
overlay `{a: {y: 2}, c: [3]}`. -/
theorem deepMerge_obj_spec_witness :
    (([("a", JVal.obj [("y", JVal.num 2)]), ("c", JVal.arr [JVal.num 3])].map
        (Prod.fst (α := String) (β := JVal))).Nodup)
    ∧ ∃ rf,
        deepMerge (.obj [("a", JVal.obj [("x", JVal.num 1)]), ("b", JVal.num 7)])
            (.obj [("a", JVal.obj [("y", JVal.num 2)]), ("c", JVal.arr [JVal.num 3])])
          = .obj rf
      ∧ (∀ k, (lookupField rf k).isSome
            ↔ ((lookupField [("a", JVal.obj [("x", JVal.num 1)]), ("b", JVal.num 7)] k).isSome
              ∨ (lookupField [("a", JVal.obj [("y", JVal.num 2)]),
                    ("c", JVal.arr [JVal.num 3])] k).isSome))
      ∧ (∀ k, lookupField [("a", JVal.obj [("y", JVal.num 2)]), ("c", JVal.arr [JVal.num 3])] k
              = none →
            lookupField rf k
              = lookupField [("a", JVal.obj [("x", JVal.num 1)]), ("b", JVal.num 7)] k)
      ∧ (∀ k sv, lookupField [("a", JVal.obj [("y", JVal.num 2)]), ("c", JVal.arr [JVal.num 3])] k
              = some sv → isObject sv = false →
            lookupField rf k = some sv)
      ∧ (∀ k sv, lookupField [("a", JVal.obj [("y", JVal.num 2)]), ("c", JVal.arr [JVal.num 3])] k
              = some sv → isObject sv = true →
            lookupField [("a", JVal.obj [("x", JVal.num 1)]), ("b", JVal.num 7)] k = none →
            lookupField rf k = some sv)
      ∧ (∀ k sv tv, lookupField [("a", JVal.obj [("y", JVal.num 2)]),
              ("c", JVal.arr [JVal.num 3])] k = some sv → isObject sv = true →
            lookupField [("a", JVal.obj [("x", JVal.num 1)]), ("b", JVal.num 7)] k = some tv →
            lookupField rf k = some (deepMerge tv sv)) := by
  refine ⟨by simp, deepMerge_obj_spec _ _ (by simp)⟩

/-- Claim C8: merging an empty overlay into any base mapping yields the
base unchanged: when `base` is a plain object, `deepMerge(base, {})` first
shallow-copies `base` and the key loop over `Object.keys({})` is empty. -/
theorem deepMerge_empty_overlay (base : JVal) (h : isObject base = true) :
    deepMerge base (.obj []) = base := by
  cases base <;> simp_all [isObject]
  simp [deepMerge, mergeFields, toFields]

/-- Witness for `deepMerge_empty_overlay` at base `{a: 1, b: [2]}`. -/
theorem deepMerge_empty_overlay_witness :
    isObject (JVal.obj [("a", JVal.num 1), ("b", JVal.arr [JVal.num 2])]) = true
    ∧ deepMerge (JVal.obj [("a", JVal.num 1), ("b", JVal.arr [JVal.num 2])]) (.obj [])
        = JVal.obj [("a", JVal.num 1), ("b", JVal.arr [JVal.num 2])] :=
  ⟨rfl, deepMerge_empty_overlay _ rfl⟩

/-- Claim C9: `deepMerge({a:{x:1}}, {a:{y:2}})` recursively unions the
nested objects bound to the shared key `a`, giving `{a:{x:1,y:2}}`. -/
theorem deepMerge_nested_union :
    deepMerge (JVal.obj [("a", JVal.obj [("x", JVal.num 1)])])
        (JVal.obj [("a", JVal.obj [("y", JVal.num 2)])])
      = JVal.obj [("a", JVal.obj [("x", JVal.num 1), ("y", JVal.num 2)])] := by
  simp [deepMerge, mergeFields, setField, lookupField, isObject, toFields]

/-!
## Effectful functions

The rest of helpers.js reads and writes settings files and shows messages
through the `vscode` API.  We embed it with explicit state passing:

* `Config` holds the ambient host facts: the workspace folders exposed by
  `vscode.workspace.workspaceFolders` (`none` models the `undefined` the
  API yields when no folder is open), `process.platform`, and whether the
  final `fs.writeFile` fails (`writeFailure` carries its error message).
* `St` holds the mutable world: the files on disk and the messages shown.
* A file on disk either parses as JSON (`FileData.valid` carries the
  parsed value; `JSON.parse` itself is a host primitive, modelled by this
  distinction) or raises a parse error (`FileData.malformed` carries the
  error message).
* A JavaScript exception is a `JsErr`; a function that can throw returns
  `Except JsErr _`.  An async function that rejects is the same thing to
  its awaiting caller.
-/

/-- A file's content as seen through `JSON.parse`. -/
inductive FileData where
  | valid (v : JVal)
  | malformed (errMsg : String)
  deriving Repr

/-- A JavaScript exception: the `TypeError` of dereferencing `undefined`
(with its message, quotes elided), or an `fs.writeFile` error. -/
inductive JsErr where
  | typeError (m : String)
  | writeError (m : String)
  deriving Repr

/-- A user-facing notification through the `vscode.window` API. -/
inductive Msg where
  | error (s : String)
  | info (s : String)
  deriving Repr

/-- Ambient host configuration (unchanged during a run). -/
structure Config where
  workspaceFolders : Option (List String)
  platform : String
  writeFailure : Option String

/-- The mutable world: files on disk, notifications shown so far, and the
`console` log. -/
structure St where
  files : List (String × FileData)
  messages : List Msg
  consoleLog : List String

/-- `vscode.window.showErrorMessage`. -/
def showErrorMessage (st : St) (s : String) : St :=
  { st with messages := st.messages ++ [.error s] }

/-- `vscode.window.showInformationMessage`. -/
def showInformationMessage (st : St) (s : String) : St :=
  { st with messages := st.messages ++ [.info s] }

/-- Lookup of a path among the files on disk. -/
def findFile : List (String × FileData) → String → Option FileData
  | [], _ => none
  | (p, d) :: rest, q => if p = q then some d else findFile rest q

/-- Store (create or overwrite) a file. -/
def setFile : List (String × FileData) → String → FileData → List (String × FileData)
  | [], p, d => [(p, d)]
  | (p', d') :: rest, p, d =>
      if p' = p then (p, d) :: rest else (p', d') :: setFile rest p d

/-- helpers.js lines 5-10: the `PLATFORMS` map from `process.platform`
values to settings-file name tags. -/
def PLATFORMS : List (String × String) :=
  [("all", "all"), ("win32", "windows"), ("darwin", "macos"), ("linux", "linux")]

/-- Lookup in `PLATFORMS` (`hasOwnProperty` + indexing). -/
def lookupStr : List (String × String) → String → Option String
  | [], _ => none
  | (k, v) :: rest, q => if k = q then some v else lookupStr rest q

/-- helpers.js lines 22-27.  A synchronous function: builds
`settings.<os>.json` when `os` is truthy and `settings.json` otherwise,
then joins it under `<workspace>/.vscode/`.  When no workspace folder is
open, `vscode.workspace.workspaceFolders` is `undefined` and indexing it
throws a `TypeError`; with an empty folder list, element `0` is
`undefined` and reading `.uri` throws likewise. -/
def getSettingFilePath (cfg : Config) (os : Option String) : Except JsErr String :=
  let fileName := match os with
    | some o => "settings." ++ o ++ ".json"
    | none => "settings.json"
  match cfg.workspaceFolders with
  | none => .error (.typeError "Cannot read properties of undefined (reading 0)")
  | some [] => .error (.typeError "Cannot read properties of undefined (reading uri)")
  | some (w :: _) => .ok (w ++ "/.vscode/" ++ fileName)

/-- helpers.js lines 44-51: `fs.promises.access` wrapped in try/catch;
never throws, just reports existence. -/
def fileExists (st : St) (p : String) : Bool :=
  (findFile st.files p).isSome

/-- helpers.js lines 53-66.  If the file exists, `JSON.parse` its text:
a parse error is caught, reported, and replaced by `{}`; a missing file
is reported and replaced by `{}`.  Never throws.  (The `none` fallback of
the inner match is unreachable: the guard established existence.) -/
def getFileContent (p : String) (st : St) : JVal × St :=
  if fileExists st p then
    match findFile st.files p with
    | some (.valid v) => (v, st)
    | some (.malformed e) =>
        (.obj [], showErrorMessage st ("Error reading settings file: " ++ e))
    | none => (.obj [], st)
  else
    (.obj [], showErrorMessage st ("Settings file not found: " ++ p))

/-- helpers.js lines 29-32: path computation (which can throw) followed by
`getFileContent`. -/
def getSettingsFileContent (cfg : Config) (os : Option String) (st : St) :
    Except JsErr JVal × St :=
  match getSettingFilePath cfg os with
  | .error e => (.error e, st)
  | .ok p =>
      let (v, st') := getFileContent p st
      (.ok v, st')

/-- helpers.js lines 34-42: map `process.platform` through `PLATFORMS`;
an unknown platform is reported and yields `false` (modelled `none`). -/
def getOsName (cfg : Config) (st : St) : Option String × St :=
  match lookupStr PLATFORMS cfg.platform with
  | some name => (some name, st)
  | none => (none, showErrorMessage st ("Unsupported operating system: " ++ cfg.platform))

/-- helpers.js lines 12-20: compute the four candidate paths (in
`Object.values(PLATFORMS)` order; each computation can throw), check
existence of each, and OR the results. -/
def isValid (cfg : Config) (st : St) : Except JsErr Bool × St :=
  match getSettingFilePath cfg (some "all") with
  | .error e => (.error e, st)
  | .ok p1 =>
    match getSettingFilePath cfg (some "windows") with
    | .error e => (.error e, st)
    | .ok p2 =>
      match getSettingFilePath cfg (some "macos") with
      | .error e => (.error e, st)
      | .ok p3 =>
        match getSettingFilePath cfg (some "linux") with
        | .error e => (.error e, st)
        | .ok p4 =>
            (.ok (fileExists st p1 || fileExists st p2 ||
                  fileExists st p3 || fileExists st p4), st)

/-- JavaScript truthiness of a JSON value: `null`, `false`, `0` and the
empty string are falsy; every array and every object (including `{}`) is
truthy. -/
def truthy : JVal → Bool
  | .null => false
  | .bool b => b
  | .num n => decide (n ≠ 0)
  | .str s => decide (s ≠ "")
  | .arr _ => true
  | .obj _ => true

/-- helpers.js lines 68-83: resolve the default settings content.  Fetch
the `all` file's resolved content; if truthy (`if (all)`), return it;
otherwise fetch the generic `settings.json`; if truthy, return it;
otherwise `{}`. -/
def getDefaultSettingsFileContent (cfg : Config) (st : St) : Except JsErr JVal × St :=
  match getSettingsFileContent cfg (some "all") st with
  | (.error e, st1) => (.error e, st1)
  | (.ok all, st1) =>
    if truthy all then (.ok all, st1)
    else
      match getSettingsFileContent cfg none st1 with
      | (.error e, st2) => (.error e, st2)
      | (.ok settings, st2) =>
          if truthy settings then (.ok settings, st2) else (.ok (.obj []), st2)

/-- helpers.js lines 131-152.  The body calls `fs.mkdir` through the
callback API without a callback, which throws a `TypeError`
synchronously; the surrounding try/catch logs to the console and
swallows it.  The file is therefore never created and the filesystem is
untouched. -/
def createFileIfNotExists (st : St) : St :=
  { st with consoleLog :=
      st.consoleLog ++ ["Error while creating file: callback must be a function"] }

/-- helpers.js lines 85-105: compute the generic `settings.json` path (can
throw), attempt to create it when missing (a no-op, see
`createFileIfNotExists`), resolve the default settings, deep-merge the
new settings over them, and write the result back (`JSON.stringify` of
the merged object; the stored `FileData.valid` carries the value it
serializes).  A write failure rejects the returned promise. -/
def updateSettingsFile (cfg : Config) (newSettings : JVal) (st : St) :
    Except JsErr Unit × St :=
  match getSettingFilePath cfg none with
  | .error e => (.error e, st)
  | .ok filePath =>
    let st1 := if fileExists st filePath then st else createFileIfNotExists st
    match getDefaultSettingsFileContent cfg st1 with
    | (.error e, st2) => (.error e, st2)
    | (.ok defaultSettings, st2) =>
      let settings := deepMerge defaultSettings newSettings
      match cfg.writeFailure with
      | some e => (.error (.writeError e), st2)
      | none => (.ok (), { st2 with files := setFile st2.files filePath (.valid settings) })

/-- The message of a caught JavaScript error (`error.message`). -/
def errMessage : JsErr → String
  | .typeError m => m
  | .writeError m => m

/-- Template-literal rendering of the `os` value (which is `false`, not a
string, on an unsupported platform). -/
def osLabel : Option String → String
  | some o => o
  | none => "false"

/-- helpers.js lines 154-177, the module's entry point.  `await isValid()`
is NOT inside any try/catch: if it rejects, the entry point rejects.  The
`!workspaceFolders` guard runs only after it.  Then the OS settings are
fetched (also outside the try/catch) and `updateSettingsFile` runs inside
try/catch, each outcome reported with a notification. -/
def vsCodeUpdateSettingsFile (cfg : Config) (st : St) : Except JsErr Unit × St :=
  match isValid cfg st with
  | (.error e, st1) => (.error e, st1)
  | (.ok valid, st1) =>
    if !valid then (.ok (), showErrorMessage st1 "No workspace folder opened.")
    else if cfg.workspaceFolders.isNone then
      (.ok (), showErrorMessage st1 "No workspace folder opened.")
    else
      let (os, st2) := getOsName cfg st1
      match getSettingsFileContent cfg os st2 with
      | (.error e, st3) => (.error e, st3)
      | (.ok osSettings, st3) =>
        match updateSettingsFile cfg osSettings st3 with
        | (.ok _, st4) =>
            (.ok (), showInformationMessage st4
              ("Updated settings.json for " ++ osLabel os ++ " operating system."))
        | (.error err, st4) =>
            (.ok (), showErrorMessage st4
              ("Error updating settings.json: " ++ errMessage err))

/-!
## Claims about error handling and settings resolution
-/

/-- Claim C2 (the code, run at the failing input).  With no workspace
folder open (`vscode.workspace.workspaceFolders` is `undefined`),
`vsCodeUpdateSettingsFile` REJECTS to its caller with the `TypeError`
raised inside `isValid` by `getSettingFilePath`, and shows NO message:
the `No workspace folder opened.` guard on lines 163-166 sits after the
un-guarded `await isValid()` and is never reached.  The claim (every
listed failure is caught and reported as a single user-facing message)
fails on exactly this condition, against the evident intent of that
guard. -/
theorem vsCodeUpdateSettingsFile_rejects_without_workspace :
    vsCodeUpdateSettingsFile ⟨none, "linux", none⟩ ⟨[], [], []⟩
      = (.error (.typeError "Cannot read properties of undefined (reading 0)"),
         ⟨[], [], []⟩) := rfl

/-- Claim C6: a settings file whose content is malformed JSON is read as
the empty mapping; the parse error is not propagated — only reported, as
exactly one error notification. -/
theorem getFileContent_malformed (p e : String) (st : St)
    (h : findFile st.files p = some (.malformed e)) :
    getFileContent p st
      = (.obj [], showErrorMessage st ("Error reading settings file: " ++ e)) := by
  simp [getFileContent, fileExists, h]

/-- Witness for `getFileContent_malformed`: a file holding text that does
not parse. -/
theorem getFileContent_malformed_witness :
    findFile [("w/.vscode/settings.json", FileData.malformed "Unexpected token u in JSON")]
        "w/.vscode/settings.json"
      = some (.malformed "Unexpected token u in JSON")
    ∧ getFileContent "w/.vscode/settings.json"
        ⟨[("w/.vscode/settings.json", FileData.malformed "Unexpected token u in JSON")], [], []⟩
      = (.obj [],
         showErrorMessage
           ⟨[("w/.vscode/settings.json", FileData.malformed "Unexpected token u in JSON")], [], []⟩
           ("Error reading settings file: " ++ "Unexpected token u in JSON")) :=
  ⟨rfl, getFileContent_malformed _ _ _ rfl⟩

/-- Claim C7: with a workspace open but none of the candidate settings
files present on disk, default-settings resolution returns the empty
mapping and throws nothing: the missing `all` file already resolves to
`{}` (with a not-found notification), which is truthy and returned. -/
theorem getDefaultSettings_no_files (cfg : Config) (st : St) (w : String) (ws : List String)
    (hw : cfg.workspaceFolders = some (w :: ws))
    (h1 : findFile st.files (w ++ "/.vscode/" ++ "settings.all.json") = none)
    (_h2 : findFile st.files (w ++ "/.vscode/" ++ "settings.json") = none)
    (_h3 : findFile st.files (w ++ "/.vscode/" ++ "settings.windows.json") = none)
    (_h4 : findFile st.files (w ++ "/.vscode/" ++ "settings.macos.json") = none)
    (_h5 : findFile st.files (w ++ "/.vscode/" ++ "settings.linux.json") = none) :
    getDefaultSettingsFileContent cfg st
      = (.ok (.obj []),
         showErrorMessage st
           ("Settings file not found: " ++ (w ++ "/.vscode/" ++ "settings.all.json"))) := by
  simp [getDefaultSettingsFileContent, getSettingsFileContent, getSettingFilePath, hw,
    getFileContent, fileExists, h1, truthy]

/-- Witness for `getDefaultSettings_no_files`: an empty disk. -/
theorem getDefaultSettings_no_files_witness :
    (some ["home"] = some ("home" :: []))
    ∧ (findFile ([] : List (String × FileData)) ("home" ++ "/.vscode/" ++ "settings.all.json")
        = none)
    ∧ getDefaultSettingsFileContent ⟨some ["home"], "darwin", none⟩ ⟨[], [], []⟩
      = (.ok (.obj []),
         showErrorMessage ⟨[], [], []⟩
           ("Settings file not found: " ++ ("home" ++ "/.vscode/" ++ "settings.all.json"))) :=
  ⟨rfl, rfl, getDefaultSettings_no_files _ _ _ _ rfl rfl rfl rfl rfl rfl⟩

/-- Claim C3 (counterexample).  Both `settings.all.json` and the
OS-specific `settings.linux.json` exist, but the `all` file holds the
JSON document `0`.  `0` is falsy, so `getDefaultSettingsFileContent`
falls through to the generic `settings.json` and returns `{"b": 2}` — not
the `all` file's content. -/
theorem getDefaultSettings_all_not_returned_cex :
    (findFile [("w/.vscode/settings.all.json", FileData.valid (JVal.num 0)),
        ("w/.vscode/settings.linux.json", FileData.valid (JVal.obj [("os", JVal.bool true)])),
        ("w/.vscode/settings.json", FileData.valid (JVal.obj [("b", JVal.num 2)]))]
        "w/.vscode/settings.all.json" = some (FileData.valid (JVal.num 0)))
    ∧ (findFile [("w/.vscode/settings.all.json", FileData.valid (JVal.num 0)),
        ("w/.vscode/settings.linux.json", FileData.valid (JVal.obj [("os", JVal.bool true)])),
        ("w/.vscode/settings.json", FileData.valid (JVal.obj [("b", JVal.num 2)]))]
        "w/.vscode/settings.linux.json"
        = some (FileData.valid (JVal.obj [("os", JVal.bool true)])))
    ∧ (getDefaultSettingsFileContent ⟨some ["w"], "linux", none⟩
        ⟨[("w/.vscode/settings.all.json", FileData.valid (JVal.num 0)),
          ("w/.vscode/settings.linux.json", FileData.valid (JVal.obj [("os", JVal.bool true)])),
          ("w/.vscode/settings.json", FileData.valid (JVal.obj [("b", JVal.num 2)]))], [], []⟩).1
        = .ok (JVal.obj [("b", JVal.num 2)])
    ∧ JVal.obj [("b", JVal.num 2)] ≠ JVal.num 0 := by
  refine ⟨rfl, rfl, rfl, by simp⟩

/-- Claim C3 (amended).  Whenever both the `all` file and an OS-specific
file exist AND the `all` file's content parses to a truthy value (any
JSON object qualifies), default-settings resolution returns exactly that
value, untouched state: the `all` file is preferred and the OS-specific
file is never consulted. -/
theorem getDefaultSettings_prefers_truthy_all (cfg : Config) (st : St)
    (w : String) (ws : List String) (v : JVal) (d : FileData)
    (hw : cfg.workspaceFolders = some (w :: ws))
    (hall : findFile st.files (w ++ "/.vscode/" ++ "settings.all.json") = some (.valid v))
    (hv : truthy v = true)
    (_hos : findFile st.files (w ++ "/.vscode/" ++ "settings.linux.json") = some d) :
    getDefaultSettingsFileContent cfg st = (.ok v, st) := by
  simp [getDefaultSettingsFileContent, getSettingsFileContent, getSettingFilePath, hw,
    getFileContent, fileExists, hall, hv]

/-- Witness for `getDefaultSettings_prefers_truthy_all`. -/
theorem getDefaultSettings_prefers_truthy_all_witness :
    (some ["wit"] = some ("wit" :: []))
    ∧ (findFile [("wit/.vscode/settings.all.json", FileData.valid (JVal.obj [("k", JVal.num 9)])),
        ("wit/.vscode/settings.linux.json", FileData.valid (JVal.obj []))]
        ("wit" ++ "/.vscode/" ++ "settings.all.json")
        = some (.valid (JVal.obj [("k", JVal.num 9)])))
    ∧ truthy (JVal.obj [("k", JVal.num 9)]) = true
    ∧ (findFile [("wit/.vscode/settings.all.json", FileData.valid (JVal.obj [("k", JVal.num 9)])),
        ("wit/.vscode/settings.linux.json", FileData.valid (JVal.obj []))]
        ("wit" ++ "/.vscode/" ++ "settings.linux.json") = some (FileData.valid (JVal.obj [])))
    ∧ getDefaultSettingsFileContent ⟨some ["wit"], "linux", none⟩
        ⟨[("wit/.vscode/settings.all.json", FileData.valid (JVal.obj [("k", JVal.num 9)])),
          ("wit/.vscode/settings.linux.json", FileData.valid (JVal.obj []))], [], []⟩
        = (.ok (JVal.obj [("k", JVal.num 9)]),
           ⟨[("wit/.vscode/settings.all.json", FileData.valid (JVal.obj [("k", JVal.num 9)])),
             ("wit/.vscode/settings.linux.json", FileData.valid (JVal.obj []))], [], []⟩) :=
  ⟨rfl, rfl, rfl, rfl, getDefaultSettings_prefers_truthy_all _ _ _ _ _ _ rfl rfl rfl rfl⟩

/-- Claim C4 (counterexample).  The OS-tagged (`all`) file is absent while
the generic `settings.json` exists holding `{"a": 1}`.  The claimed
fallback to the generic file does not happen: the missing file resolves
to `{}` (truthy), which is returned immediately, with the generic file
never read. -/
theorem getDefaultSettings_absent_no_generic_fallback_cex :
    (findFile [("w/.vscode/settings.json", FileData.valid (JVal.obj [("a", JVal.num 1)]))]
        "w/.vscode/settings.all.json" = none)
    ∧ (findFile [("w/.vscode/settings.json", FileData.valid (JVal.obj [("a", JVal.num 1)]))]
        "w/.vscode/settings.json" = some (FileData.valid (JVal.obj [("a", JVal.num 1)])))
    ∧ (getDefaultSettingsFileContent ⟨some ["w"], "linux", none⟩
        ⟨[("w/.vscode/settings.json", FileData.valid (JVal.obj [("a", JVal.num 1)]))],
          [], []⟩).1
        = .ok (JVal.obj [])
    ∧ JVal.obj [] ≠ JVal.obj [("a", JVal.num 1)] := by
  refine ⟨rfl, rfl, rfl, by simp⟩

/-- Claim C4 (amended).  Resolution does try the OS-tagged
`settings.all.json` under `<workspace>/.vscode` first, but when that file
is absent it does NOT fall back to the generic file: the failed read
already resolves to the empty mapping `{}` (after a not-found
notification), `{}` is truthy, and it is returned immediately whatever
the generic file holds.  (The generic file is consulted only when the
first resolved content is falsy.) -/
theorem getDefaultSettings_absent_all_yields_empty (cfg : Config) (st : St)
    (w : String) (ws : List String)
    (hw : cfg.workspaceFolders = some (w :: ws))
    (hall : findFile st.files (w ++ "/.vscode/" ++ "settings.all.json") = none) :
    getDefaultSettingsFileContent cfg st
      = (.ok (.obj []),
         showErrorMessage st
           ("Settings file not found: " ++ (w ++ "/.vscode/" ++ "settings.all.json"))) := by
  simp [getDefaultSettingsFileContent, getSettingsFileContent, getSettingFilePath, hw,
    getFileContent, fileExists, hall, truthy]

/-- Witness for `getDefaultSettings_absent_all_yields_empty`: the generic
file exists with `{"a": 1}` yet the result is `{}`. -/
theorem getDefaultSettings_absent_all_yields_empty_witness :
    (some ["base"] = some ("base" :: []))
    ∧ (findFile [("base/.vscode/settings.json", FileData.valid (JVal.obj [("a", JVal.num 1)]))]
        ("base" ++ "/.vscode/" ++ "settings.all.json") = none)
    ∧ getDefaultSettingsFileContent ⟨some ["base"], "win32", none⟩
        ⟨[("base/.vscode/settings.json", FileData.valid (JVal.obj [("a", JVal.num 1)]))], [], []⟩
      = (.ok (.obj []),
         showErrorMessage
           ⟨[("base/.vscode/settings.json", FileData.valid (JVal.obj [("a", JVal.num 1)]))],
             [], []⟩
           ("Settings file not found: " ++ ("base" ++ "/.vscode/" ++ "settings.all.json"))) :=
  ⟨rfl, rfl, getDefaultSettings_absent_all_yields_empty _ _ _ _ rfl rfl⟩

/-- Claim C5 (counterexample).  `getFileContent` does not always return an
object: it returns whatever `JSON.parse` yields.  With
`settings.all.json` holding the JSON document `false` (falsy) and a
generic `settings.json` holding `{"x": "y"}`, the two sides differ:
`getSettingsFileContent('all')` yields `false` while
`getDefaultSettingsFileContent` falls through and yields `{"x": "y"}`. -/
theorem getDefaultSettings_not_ext_eq_all_cex :
    (getSettingsFileContent ⟨some ["home"], "darwin", none⟩ (some "all")
        ⟨[("home/.vscode/settings.all.json", FileData.valid (JVal.bool false)),
          ("home/.vscode/settings.json", FileData.valid (JVal.obj [("x", JVal.str "y")]))],
          [], []⟩).1
      = .ok (JVal.bool false)
    ∧ (getDefaultSettingsFileContent ⟨some ["home"], "darwin", none⟩
        ⟨[("home/.vscode/settings.all.json", FileData.valid (JVal.bool false)),
          ("home/.vscode/settings.json", FileData.valid (JVal.obj [("x", JVal.str "y")]))],
          [], []⟩).1
      = .ok (JVal.obj [("x", JVal.str "y")])
    ∧ (Except.ok (ε := JsErr) (JVal.obj [("x", JVal.str "y")])) ≠ .ok (JVal.bool false) := by
  refine ⟨rfl, rfl, by simp⟩

/-- Claim C5 (amended).  `getDefaultSettingsFileContent` coincides with
`getSettingsFileContent('all')` on every host state in which the `all`
resolution does not produce a falsy value — in particular whenever the
`all` file is missing, malformed, or holds any JSON object, since all
three resolve to a (truthy) object.  The fallback branches are reachable
only when the `all` file parses to a falsy document such as `0`. -/
theorem getDefaultSettings_eq_all_when_truthy (cfg : Config) (st : St)
    (h : ∀ v st', getSettingsFileContent cfg (some "all") st = (.ok v, st') →
      truthy v = true) :
    getDefaultSettingsFileContent cfg st = getSettingsFileContent cfg (some "all") st := by
  rcases hres : getSettingsFileContent cfg (some "all") st with ⟨r, st1⟩
  cases r with
  | error e => simp [getDefaultSettingsFileContent, hres]
  | ok v =>
      have hv := h v st1 hres
      simp [getDefaultSettingsFileContent, hres, hv]

/-- Witness for `getDefaultSettings_eq_all_when_truthy`: the `all` file
holds the object `{"m": 5}`. -/
theorem getDefaultSettings_eq_all_when_truthy_witness :
    (∀ v st', getSettingsFileContent ⟨some ["u"], "linux", none⟩ (some "all")
        ⟨[("u/.vscode/settings.all.json", FileData.valid (JVal.obj [("m", JVal.num 5)]))],
          [], []⟩
        = (.ok v, st') → truthy v = true)
    ∧ getDefaultSettingsFileContent ⟨some ["u"], "linux", none⟩
        ⟨[("u/.vscode/settings.all.json", FileData.valid (JVal.obj [("m", JVal.num 5)]))],
          [], []⟩
      = getSettingsFileContent ⟨some ["u"], "linux", none⟩ (some "all")
        ⟨[("u/.vscode/settings.all.json", FileData.valid (JVal.obj [("m", JVal.num 5)]))],
          [], []⟩ := by
  constructor
  · intro v st' hvst
    have hred : getSettingsFileContent ⟨some ["u"], "linux", none⟩ (some "all")
        ⟨[("u/.vscode/settings.all.json", FileData.valid (JVal.obj [("m", JVal.num 5)]))],
          [], []⟩
        = (.ok (JVal.obj [("m", JVal.num 5)]),
           ⟨[("u/.vscode/settings.all.json", FileData.valid (JVal.obj [("m", JVal.num 5)]))],
             [], []⟩) := rfl
    rw [hred] at hvst
    injection hvst with h1 h2
    injection h1 with h1
    subst h1
    rfl
  · exact getDefaultSettings_eq_all_when_truthy _ _ (by
      intro v st' hvst
      have hred : getSettingsFileContent ⟨some ["u"], "linux", none⟩ (some "all")
          ⟨[("u/.vscode/settings.all.json", FileData.valid (JVal.obj [("m", JVal.num 5)]))],
            [], []⟩
          = (.ok (JVal.obj [("m", JVal.num 5)]),
             ⟨[("u/.vscode/settings.all.json", FileData.valid (JVal.obj [("m", JVal.num 5)]))],
               [], []⟩) := rfl
      rw [hred] at hvst
      injection hvst with h1 h2
      injection h1 with h1
      subst h1
      rfl)

/-!
## Heap semantics of `deepMerge` (frame property)

`JVal` above captures the VALUES of JavaScript objects, so it cannot talk
about mutation.  To settle whether `deepMerge` mutates its arguments we
re-embed it over an explicit heap: objects and arrays live at addresses,
values are primitives or references, and every JavaScript object
operation of lines 107-125 becomes an operation on the heap.
`Object.assign({}, target)` ALLOCATES the output object;
`output[key] = v` writes a field of an existing object; nothing else
writes to the heap.  The recursion is indexed by fuel (the JavaScript
recursion has no structural measure on a heap); all claims are stated for
every fuel value that lets the run finish. -/

/-- Primitive (non-reference) JavaScript values in the heap semantics. -/
inductive HPrim where
  | undefined
  | null
  | bool (b : Bool)
  | num (n : Int)
  | str (s : String)
  deriving Repr

/-- A heap value: a primitive or a reference to a heap object. -/
inductive HVal where
  | prim (p : HPrim)
  | ref (a : Nat)
  deriving Repr

/-- A heap object: a plain object or an array, with its own enumerable
fields as an ordered association list (an array carries its index keys
`"0"`, `"1"`, …). -/
structure HObj where
  isArr : Bool
  fields : List (String × HVal)
  deriving Repr

/-- The heap: allocated objects and the next fresh address. -/
structure Heap where
  objs : List (Nat × HObj)
  next : Nat
  deriving Repr

/-- Address lookup (first binding). -/
def lookupAddr : List (Nat × HObj) → Nat → Option HObj
  | [], _ => none
  | (b, o) :: rest, a => if b = a then some o else lookupAddr rest a

/-- Field lookup in a heap object's field list. -/
def lookupFieldH : List (String × HVal) → String → Option HVal
  | [], _ => none
  | (k', v) :: rest, k => if k' = k then some v else lookupFieldH rest k

/-- Field store in a heap object's field list (overwrite in place or
append, JavaScript property-set order). -/
def setFieldH : List (String × HVal) → String → HVal → List (String × HVal)
  | [], k, v => [(k, v)]
  | (k', v') :: rest, k, v =>
      if k' = k then (k, v) :: rest else (k', v') :: setFieldH rest k v

/-- Allocate a fresh object; returns its address. -/
def allocObj (h : Heap) (o : HObj) : Nat × Heap :=
  (h.next, ⟨(h.next, o) :: h.objs, h.next + 1⟩)

/-- `obj[key] = v` at address `a`: rewrite the object stored there,
leaving every other address untouched. -/
def setFieldAt (h : Heap) (a : Nat) (k : String) (v : HVal) : Heap :=
  { h with objs :=
      h.objs.map (fun p => if p.1 = a then (p.1, ⟨p.2.isArr, setFieldH p.2.fields k v⟩) else p) }

/-- helpers.js lines 127-129 over the heap: a reference to a live
non-array object (dangling references never arise). -/
def isObjectH (h : Heap) : HVal → Bool
  | .ref a =>
      match lookupAddr h.objs a with
      | some o => !o.isArr
      | none => false
  | .prim _ => false

/-- The own enumerable fields `Object.assign({}, v)` copies: an object's
or array's fields, a string's indexed characters, nothing for other
primitives. -/
def assignFields (h : Heap) : HVal → List (String × HVal)
  | .ref a =>
      match lookupAddr h.objs a with
      | some o => o.fields
      | none => []
  | .prim (.str s) => s.data.enum.map (fun p => (toString p.1, HVal.prim (.str (String.mk [p.2]))))
  | .prim _ => []

/-- `Object.keys(v)` (snapshot taken when the loop starts). -/
def objKeysH (h : Heap) : HVal → List String
  | .ref a =>
      match lookupAddr h.objs a with
      | some o => o.fields.map Prod.fst
      | none => []
  | .prim _ => []

/-- Property read `v[k]` (only reached on live object references;
a missing key reads as `undefined`). -/
def objGetH (h : Heap) (v : HVal) (k : String) : HVal :=
  match v with
  | .ref a =>
      match lookupAddr h.objs a with
      | some o =>
          match lookupFieldH o.fields k with
          | some w => w
          | none => .prim .undefined
      | none => .prim .undefined
  | .prim _ => .prim .undefined

/-- `k in v`. -/
def keyInH (h : Heap) (v : HVal) (k : String) : Bool :=
  match v with
  | .ref a =>
      match lookupAddr h.objs a with
      | some o => (lookupFieldH o.fields k).isSome
      | none => false
  | .prim _ => false

mutual

/-- helpers.js lines 107-125 over the heap.  Line 108 allocates the
output as a copy of the target's own fields; when both arguments are
plain objects the loop `mergeKeysH` runs over the snapshot of the
source's keys; the output reference is returned. -/
def deepMergeH : Nat → HVal → HVal → Heap → Option (HVal × Heap)
  | 0, _, _, _ => none
  | fuel + 1, target, source, h =>
      let (a, h1) := allocObj h ⟨false, assignFields h target⟩
      if isObjectH h target && isObjectH h source then
        match mergeKeysH fuel a target source (objKeysH h source) h1 with
        | none => none
        | some h2 => some (.ref a, h2)
      else
        some (.ref a, h1)

/-- The loop of lines 111-121 over the heap: for each key, read
`source[key]` live; a plain-object source value is merged with
`target[key]` (when the key is in the target) or adopted by reference;
anything else overwrites; every write goes to the output address `a`. -/
def mergeKeysH : Nat → Nat → HVal → HVal → List String → Heap → Option Heap
  | _, _, _, _, [], h => some h
  | 0, _, _, _, _ :: _, _ => none
  | fuel + 1, a, target, source, k :: ks, h =>
      let sv := objGetH h source k
      if isObjectH h sv then
        if keyInH h target k then
          match deepMergeH fuel (objGetH h target k) sv h with
          | none => none
          | some (r, h2) => mergeKeysH fuel a target source ks (setFieldAt h2 a k r)
        else
          mergeKeysH fuel a target source ks (setFieldAt h a k sv)
      else
        mergeKeysH fuel a target source ks (setFieldAt h a k sv)

end

/-- Heap well-formedness: every allocated address is below `next`. -/
def HeapWF (h : Heap) : Prop := ∀ p ∈ h.objs, p.1 < h.next

theorem lookupAddr_mem (l : List (Nat × HObj)) (b : Nat) (o : HObj)
    (h : lookupAddr l b = some o) : (b, o) ∈ l := by
  induction l with
  | nil => simp [lookupAddr] at h
  | cons hd rest ih =>
      obtain ⟨b0, o0⟩ := hd
      by_cases hb : b0 = b
      · subst hb
        simp [lookupAddr] at h
        simp [h]
      · simp [lookupAddr, hb] at h
        simp [ih h]

theorem lookupAddr_map_set (l : List (Nat × HObj)) (a : Nat) (f : HObj → HObj) (b : Nat)
    (hne : b ≠ a) :
    lookupAddr (l.map (fun p => if p.1 = a then (p.1, f p.2) else p)) b = lookupAddr l b := by
  induction l with
  | nil => rfl
  | cons hd rest ih =>
      obtain ⟨b0, o0⟩ := hd
      simp only [List.map_cons]
      by_cases hb : b0 = a
      · rw [if_pos hb]
        have hbb : ¬ b0 = b := by
          intro he
          exact hne (by rw [← he, hb])
        simp only [lookupAddr, if_neg hbb]
        exact ih
      · rw [if_neg hb]
        simp only [lookupAddr]
        by_cases hb0 : b0 = b
        · simp [hb0]
        · simp [hb0, ih]

theorem lookupAddr_setFieldAt (h : Heap) (a : Nat) (k : String) (v : HVal) (b : Nat)
    (hne : b ≠ a) : lookupAddr (setFieldAt h a k v).objs b = lookupAddr h.objs b :=
  lookupAddr_map_set h.objs a (fun o => ⟨o.isArr, setFieldH o.fields k v⟩) b hne

theorem next_setFieldAt (h : Heap) (a : Nat) (k : String) (v : HVal) :
    (setFieldAt h a k v).next = h.next := rfl

theorem heapWF_setFieldAt (h : Heap) (a : Nat) (k : String) (v : HVal)
    (hwf : HeapWF h) : HeapWF (setFieldAt h a k v) := by
  intro q hq
  simp only [setFieldAt, List.mem_map] at hq
  obtain ⟨p, hp, hpq⟩ := hq
  have hlt := hwf p hp
  by_cases hb : p.1 = a
  · simp [hb] at hpq
    rw [← hpq]
    simpa [hb] using hlt
  · simp [hb] at hpq
    rw [← hpq]
    exact hlt

theorem heapWF_alloc (h : Heap) (o : HObj) (hwf : HeapWF h) :
    HeapWF ⟨(h.next, o) :: h.objs, h.next + 1⟩ := by
  intro p hp
  rcases List.mem_cons.mp hp with hp | hp
  · rw [hp]
    exact Nat.lt_succ_self _
  · exact Nat.lt_succ_of_lt (hwf p hp)

theorem lookupAddr_alloc (h : Heap) (o : HObj) (b : Nat) (hb : b < h.next) :
    lookupAddr ((h.next, o) :: h.objs) b = lookupAddr h.objs b := by
  have hne : ¬ h.next = b := by
    intro he
    exact absurd hb (by rw [he]; exact lt_irrefl _)
  simp [lookupAddr, hne]

/-- The combined frame invariant of `deepMergeH` and its loop, by
induction on fuel: a run never changes an address that existed before it
started (the loop additionally owns the output address `a` it writes to),
the address counter only grows, well-formedness is preserved, and the
returned reference is freshly allocated. -/
theorem mergeH_frame (fuel : Nat) :
    (∀ t s h r h', HeapWF h → deepMergeH fuel t s h = some (r, h') →
      h.next ≤ h'.next ∧ HeapWF h'
      ∧ (∀ b, b < h.next → lookupAddr h'.objs b = lookupAddr h.objs b)
      ∧ ∃ a, r = HVal.ref a ∧ h.next ≤ a ∧ a < h'.next)
    ∧ (∀ a t s ks h h', HeapWF h → mergeKeysH fuel a t s ks h = some h' →
      h.next ≤ h'.next ∧ HeapWF h'
      ∧ (∀ b, b < h.next → b ≠ a → lookupAddr h'.objs b = lookupAddr h.objs b)) := by
  induction fuel with
  | zero =>
      constructor
      · intro t s h r h' hwf hrun
        simp [deepMergeH] at hrun
      · intro a t s ks h h' hwf hrun
        cases ks with
        | nil =>
            simp only [mergeKeysH, Option.some.injEq] at hrun
            subst hrun
            exact ⟨le_refl _, hwf, fun b _ _ => rfl⟩
        | cons k ks => simp [mergeKeysH] at hrun
  | succ fuel ih =>
      constructor
      · intro t s h r h' hwf hrun
        simp only [deepMergeH, allocObj] at hrun
        by_cases hcond : (isObjectH h t && isObjectH h s) = true
        · rw [if_pos hcond] at hrun
          cases hmk : mergeKeysH fuel h.next t s (objKeysH h s)
              ⟨(h.next, ⟨false, assignFields h t⟩) :: h.objs, h.next + 1⟩ with
          | none => rw [hmk] at hrun; simp at hrun
          | some h2 =>
              rw [hmk] at hrun
              simp only [Option.some.injEq, Prod.mk.injEq] at hrun
              obtain ⟨hr, hh⟩ := hrun
              subst hh
              have hwf1 : HeapWF ⟨(h.next, ⟨false, assignFields h t⟩) :: h.objs, h.next + 1⟩ :=
                heapWF_alloc h _ hwf
              obtain ⟨hle2, hwf2, hframe2⟩ := (ih.2) h.next t s (objKeysH h s) _ h2 hwf1 hmk
              have hnext1 : h.next + 1 ≤ h2.next := hle2
              refine ⟨Nat.le_of_succ_le hnext1, hwf2, ?_, h.next, hr.symm, le_refl _,
                Nat.lt_of_succ_le hnext1⟩
              intro b hb
              rw [hframe2 b (Nat.lt_succ_of_lt hb) (Nat.ne_of_lt hb)]
              exact lookupAddr_alloc h _ b hb
        · rw [if_neg hcond] at hrun
          simp only [Option.some.injEq, Prod.mk.injEq] at hrun
          obtain ⟨hr, hh⟩ := hrun
          subst hh
          refine ⟨Nat.le_succ _, heapWF_alloc h _ hwf, ?_, h.next, hr.symm, le_refl _,
            Nat.lt_succ_self _⟩
          intro b hb
          exact lookupAddr_alloc h _ b hb
      · intro a t s ks h h' hwf hrun
        cases ks with
        | nil =>
            simp only [mergeKeysH, Option.some.injEq] at hrun
            subst hrun
            exact ⟨le_refl _, hwf, fun b _ _ => rfl⟩
        | cons k ks =>
            simp only [mergeKeysH] at hrun
            by_cases hobj : isObjectH h (objGetH h s k) = true
            · rw [if_pos hobj] at hrun
              by_cases hin : keyInH h t k = true
              · rw [if_pos hin] at hrun
                cases hdm : deepMergeH fuel (objGetH h t k) (objGetH h s k) h with
                | none => rw [hdm] at hrun; simp at hrun
                | some p =>
                    obtain ⟨r0, h2⟩ := p
                    rw [hdm] at hrun
                    simp only at hrun
                    obtain ⟨hleM, hwf2, hframeM, a0, hr0, ha0l, ha0u⟩ :=
                      (ih.1) _ _ _ _ _ hwf hdm
                    obtain ⟨hleL, hwf', hframeL⟩ :=
                      (ih.2) a t s ks _ h' (heapWF_setFieldAt _ _ _ _ hwf2) hrun
                    rw [next_setFieldAt] at hleL
                    refine ⟨le_trans hleM hleL, hwf', ?_⟩
                    intro b hb hba
                    rw [hframeL b (by rw [next_setFieldAt]; exact lt_of_lt_of_le hb hleM) hba,
                      lookupAddr_setFieldAt _ _ _ _ _ hba]
                    exact hframeM b hb
              · rw [if_neg hin] at hrun
                obtain ⟨hleL, hwf', hframeL⟩ :=
                  (ih.2) a t s ks _ h' (heapWF_setFieldAt _ _ _ _ hwf) hrun
                rw [next_setFieldAt] at hleL
                refine ⟨hleL, hwf', ?_⟩
                intro b hb hba
                rw [hframeL b (by rw [next_setFieldAt]; exact hb) hba,
                  lookupAddr_setFieldAt _ _ _ _ _ hba]
            · rw [if_neg hobj] at hrun
              obtain ⟨hleL, hwf', hframeL⟩ :=
                (ih.2) a t s ks _ h' (heapWF_setFieldAt _ _ _ _ hwf) hrun
              rw [next_setFieldAt] at hleL
              refine ⟨hleL, hwf', ?_⟩
              intro b hb hba
              rw [hframeL b (by rw [next_setFieldAt]; exact hb) hba,
                lookupAddr_setFieldAt _ _ _ _ _ hba]

/-- Claim C10: whenever a `deepMerge` run finishes, it returns a freshly
allocated mapping (its address is not in the original heap) and leaves
every object that existed before the call — in particular the entire
structure of the target and of the source, at every nesting depth —
exactly as it was: all writes go to output objects allocated during the
run. -/
theorem deepMergeH_no_mutation (fuel : Nat) (t s : HVal) (h : Heap) (r : HVal) (h' : Heap)
    (hwf : HeapWF h) (hrun : deepMergeH fuel t s h = some (r, h')) :
    (∀ b o, lookupAddr h.objs b = some o → lookupAddr h'.objs b = some o)
    ∧ ∃ a, r = HVal.ref a ∧ lookupAddr h.objs a = none := by
  obtain ⟨hle, hwf', hframe, a, hr, hal, hau⟩ := (mergeH_frame fuel).1 t s h r h' hwf hrun
  constructor
  · intro b o hb
    have hblt : b < h.next := hwf (b, o) (lookupAddr_mem _ _ _ hb)
    rw [hframe b hblt]
    exact hb
  · refine ⟨a, hr, ?_⟩
    cases hla : lookupAddr h.objs a with
    | none => rfl
    | some o =>
        have hlt := hwf (a, o) (lookupAddr_mem _ _ _ hla)
        exact absurd hal (by omega)

/-- Witness for `deepMergeH_no_mutation`: target `{a:{x:1}}` at address 0
(nested object at 1) and source `{a:{y:2}}` at address 2 (nested object
at 3).  The run allocates the merged objects at 4 and 5 and addresses
0-3 still hold exactly their old objects. -/
theorem deepMergeH_no_mutation_witness :
    HeapWF ⟨[(0, ⟨false, [("a", .ref 1)]⟩), (1, ⟨false, [("x", .prim (.num 1))]⟩),
        (2, ⟨false, [("a", .ref 3)]⟩), (3, ⟨false, [("y", .prim (.num 2))]⟩)], 4⟩
    ∧ deepMergeH 4 (.ref 0) (.ref 2)
        ⟨[(0, ⟨false, [("a", .ref 1)]⟩), (1, ⟨false, [("x", .prim (.num 1))]⟩),
          (2, ⟨false, [("a", .ref 3)]⟩), (3, ⟨false, [("y", .prim (.num 2))]⟩)], 4⟩
      = some (HVal.ref 4,
          ⟨[(5, ⟨false, [("x", .prim (.num 1)), ("y", .prim (.num 2))]⟩),
            (4, ⟨false, [("a", .ref 5)]⟩),
            (0, ⟨false, [("a", .ref 1)]⟩), (1, ⟨false, [("x", .prim (.num 1))]⟩),
            (2, ⟨false, [("a", .ref 3)]⟩), (3, ⟨false, [("y", .prim (.num 2))]⟩)], 6⟩)
    ∧ ((∀ b o, lookupAddr [(0, ⟨false, [("a", .ref 1)]⟩), (1, ⟨false, [("x", .prim (.num 1))]⟩),
          (2, ⟨false, [("a", .ref 3)]⟩), (3, ⟨false, [("y", .prim (.num 2))]⟩)] b = some o →
        lookupAddr [(5, ⟨false, [("x", .prim (.num 1)), ("y", .prim (.num 2))]⟩),
            (4, ⟨false, [("a", .ref 5)]⟩),
            (0, ⟨false, [("a", .ref 1)]⟩), (1, ⟨false, [("x", .prim (.num 1))]⟩),
            (2, ⟨false, [("a", .ref 3)]⟩), (3, ⟨false, [("y", .prim (.num 2))]⟩)] b = some o)
      ∧ ∃ a, HVal.ref 4 = HVal.ref a
          ∧ lookupAddr [(0, ⟨false, [("a", .ref 1)]⟩), (1, ⟨false, [("x", .prim (.num 1))]⟩),
              (2, ⟨false, [("a", .ref 3)]⟩), (3, ⟨false, [("y", .prim (.num 2))]⟩)] a = none) :=
  by
    have hwf : HeapWF ⟨[(0, ⟨false, [("a", .ref 1)]⟩), (1, ⟨false, [("x", .prim (.num 1))]⟩),
        (2, ⟨false, [("a", .ref 3)]⟩), (3, ⟨false, [("y", .prim (.num 2))]⟩)], 4⟩ := by
      intro p hp
      fin_cases hp <;> simp
    exact ⟨hwf, rfl,
      deepMergeH_no_mutation 4 (.ref 0) (.ref 2)
        ⟨[(0, ⟨false, [("a", .ref 1)]⟩), (1, ⟨false, [("x", .prim (.num 1))]⟩),
          (2, ⟨false, [("a", .ref 3)]⟩), (3, ⟨false, [("y", .prim (.num 2))]⟩)], 4⟩
        (HVal.ref 4)
        ⟨[(5, ⟨false, [("x", .prim (.num 1)), ("y", .prim (.num 2))]⟩),
          (4, ⟨false, [("a", .ref 5)]⟩),
          (0, ⟨false, [("a", .ref 1)]⟩), (1, ⟨false, [("x", .prim (.num 1))]⟩),
          (2, ⟨false, [("a", .ref 3)]⟩), (3, ⟨false, [("y", .prim (.num 2))]⟩)], 6⟩
        hwf rfl⟩
